import Mathlib

/-!
Verification of the dumpster-user-client dashboard core.

This file gives a shallow embedding of the client's time-bucketing,
enrichment, sorting and optimistic-mutation code
(src/utils time-bucket utilities, sorting utilities,
src/hooks/useOptimistic.ts, src/contexts/DumpsContext.tsx) and proves the
specified properties about it.

Modelling conventions:
- A JavaScript Date is its millisecond timestamp, an `Int`.  An operation
  that can produce an Invalid Date (NaN) is modelled with `Option Int`
  (`none` = NaN).  A date string is represented by its parse result
  (`Option Int` for `parseISO` and for `new Date(s)` respectively), since
  the client only ever consumes the parsed value.
- date-fns works in local time; the embedding fixes the local UTC offset
  to zero, so the start of a calendar day is the enclosing multiple of
  86400000 ms.  All claims proved here are offset-independent statements.
- `now` (the evaluation instant) is passed explicitly everywhere the
  source calls `new Date()`; every claim speaks about a single instant.
-/

/-- Milliseconds per calendar day. -/
def msPerDay : Int := 86400000

/-- date-fns `startOfDay`: truncate a timestamp to the enclosing day start
(local time modelled with offset zero, hence floor to a multiple of a day). -/
def startOfDay (t : Int) : Int := msPerDay * (t.fdiv msPerDay)

/-- The civil day number of a timestamp (days since the epoch, floored). -/
def dayNumber (t : Int) : Int := t.fdiv msPerDay

/-- date-fns `isBefore`. -/
def isBefore (a b : Int) : Bool := a < b

/-- date-fns `isSameDay`: both timestamps lie in the same calendar day. -/
def isSameDay (a b : Int) : Bool := startOfDay a = startOfDay b

/-- date-fns `isToday`, with the wall clock `now` made explicit. -/
def isToday (d now : Int) : Bool := isSameDay d now

/-- date-fns `isTomorrow`, with the wall clock `now` made explicit:
same calendar day as `now` plus one day. -/
def isTomorrow (d now : Int) : Bool := isSameDay d (now + msPerDay)

/-- date-fns `addWeeks`: add `n` weeks of seven days. -/
def addWeeks (t n : Int) : Int := t + n * 7 * msPerDay

/-- Gregorian leap-year test. -/
def isLeapYear (y : Int) : Bool := (y.fmod 4 = 0 ∧ y.fmod 100 ≠ 0) ∨ y.fmod 400 = 0

/-- Number of days in a Gregorian month. -/
def daysInMonth (y m : Int) : Int :=
  if m = 2 then (if isLeapYear y then 29 else 28)
  else if m = 4 ∨ m = 6 ∨ m = 9 ∨ m = 11 then 30
  else 31

/-- Civil day number of a Gregorian date (days since 1970-01-01),
floor-division form of the standard civil-calendar conversion. -/
def daysFromCivil (y m d : Int) : Int :=
  let yy := if m ≤ 2 then y - 1 else y
  let mp := if m > 2 then m - 3 else m + 9
  365 * yy + yy.fdiv 4 - yy.fdiv 100 + yy.fdiv 400
    + (153 * mp + 2).fdiv 5 + d - 1 - 719468

/-- Gregorian date (year, month, day) of a civil day number; inverse of
`daysFromCivil` (standard civil-calendar conversion, floor-division form). -/
def civilFromDays (z : Int) : Int × Int × Int :=
  let z1 := z + 719468
  let era := z1.fdiv 146097
  let doe := z1 - era * 146097
  let yoe := (doe - doe.fdiv 1460 + doe.fdiv 36524 - doe.fdiv 146096).fdiv 365
  let y0 := yoe + era * 400
  let doy := doe - (365 * yoe + yoe.fdiv 4 - yoe.fdiv 100)
  let mp := (5 * doy + 2).fdiv 153
  let d := doy - (153 * mp + 2).fdiv 5 + 1
  let m := if mp < 10 then mp + 3 else mp - 9
  (if m ≤ 2 then y0 + 1 else y0, m, d)

/-- date-fns `addMonths`: add `n` calendar months, clamping the day of the
month to the last day of the target month, preserving the time of day. -/
def addMonths (t n : Int) : Int :=
  let day := t.fdiv msPerDay
  let tod := t.fmod msPerDay
  let c := civilFromDays day
  let months := c.1 * 12 + (c.2.1 - 1) + n
  let y2 := months.fdiv 12
  let m2 := months.fmod 12 + 1
  let d2 := min c.2.2 (daysInMonth y2 m2)
  msPerDay * daysFromCivil y2 m2 d2 + tod

/-- The six time buckets of the dashboard (type `TimeBucket` in
src/types/dump.types.ts). -/
inductive TimeBucket where
  | overdue
  | today
  | tomorrow
  | nextWeek
  | nextMonth
  | later
deriving DecidableEq, Repr

/-- `assignTimeBucket` from the time-bucket utilities.  The source takes an
ISO 8601 string and parses it with `parseISO`; its only caller passes
`validEarliestDate.toISOString()`, a valid date, and
`parseISO (toISOString d) = d` at millisecond precision, so the embedding
takes the parsed timestamp directly.  `now` stands for the `new Date()`
the source constructs internally. -/
def assignTimeBucket (date : Int) (now : Int) : TimeBucket :=
  let todayStart := startOfDay now
  let nextWeekEnd := addWeeks todayStart 1
  let nextMonthEnd := addMonths todayStart 1
  if isBefore date todayStart then .overdue
  else if isToday date now then .today
  else if isTomorrow date now then .tomorrow
  else if isBefore date nextWeekEnd then .nextWeek
  else if isBefore date nextMonthEnd then .nextMonth
  else .later

/-- The raw dump entity (interface `Dump` in src/types/dump.types.ts),
restricted to the fields the verified core reads.  Optional chains in the
source (`dump.extracted_entities?.entities?.dates` and friends) are
modelled by `Option` fields; the extracted date strings are represented by
their `parseISO` results (`none` = unparseable), and `created_at` by
`Option (Option Int)`: the outer `none` is a falsy/absent string, the
inner layer is the `new Date(created_at)` parse result (`none` = Invalid
Date).  `statusProp` models the runtime `status` property, which is not
declared on the `Dump` interface and is only ever attached by the reject
flow through an `as any` cast (`none` = property absent); a JavaScript
spread copies it only when present. -/
structure Dump where
  id : String
  created_at : Option (Option Int)
  dates : Option (List (Option Int))
  urgency : Option String
  actionItems : Option (List String)
  phones : Option (List String)
  processing_status : String
  categoryName : Option String
  statusProp : Option String := none
deriving DecidableEq, Repr

/-- `getEarliestDate` from the time-bucket utilities: the earliest validly
parseable extracted date of a dump, or `none`.  `Math.min` over the parsed
timestamps is a left fold of `min`. -/
def getEarliestDate (dump : Dump) : Option Int :=
  match dump.dates with
  | none => none
  | some dates =>
    if dates.length = 0 then none
    else
      match dates.filterMap id with
      | [] => none
      | t :: ts => some (ts.foldl min t)

/-- `isOverdue` from the time-bucket utilities, with the `new Date()`
instant made explicit. -/
def isOverdue (dump : Dump) (now : Int) : Bool :=
  match getEarliestDate dump with
  | none => false
  | some earliestDate => isBefore earliestDate (startOfDay now)

/-- JavaScript `toLowerCase` (the labels compared against are ASCII, so
the ASCII lowering of `Char.toLower` is the faithful model); defined
structurally over the character list so that it evaluates by `decide`. -/
def jsToLower (s : String) : String := String.mk (s.data.map Char.toLower)

/-- `mapProcessingStatus` from the time-bucket utilities. -/
def mapProcessingStatus (status : String) : String :=
  let validStatuses : List String := ["received", "processing", "completed", "failed"]
  let normalized := jsToLower status
  if validStatuses.contains normalized then normalized else "received"

/-- The derived dump (interface `DumpDerived`), restricted to the fields
the verified core writes or reads.  `status` is the derived processing
status (it shadows the runtime `status` property in the source). -/
structure DumpDerived extends Dump where
  timeBucket : TimeBucket
  isOverdue : Bool
  displayDate : Int
  hasReminder : Bool
  hasTracking : Bool
  status : String
  notes : Option String
deriving DecidableEq, Repr

/-- `enrichDump` from the time-bucket utilities, with the `new Date()`
instant made explicit.  `dump.category?.name || 'general'` is modelled on
the already-projected `categoryName` field. -/
def enrichDump (dump : Dump) (now : Int) : DumpDerived :=
  let earliestDate := getEarliestDate dump
  let displayDate : Int :=
    match earliestDate with
    | some e => e
    | none =>
      match dump.created_at with
      | some (some t) => t
      | some none => now
      | none => now
  let hasReminder :=
    match dump.actionItems with
    | some l => decide (0 < l.length)
    | none => false
  let hasTracking :=
    match dump.phones with
    | some l => decide (0 < l.length)
    | none => false
  { dump with
    timeBucket := match earliestDate with
      | some e => assignTimeBucket e now
      | none => .later
    isOverdue := match earliestDate with
      | some _ => isOverdue dump now
      | none => false
    displayDate := displayDate
    hasReminder := hasReminder
    hasTracking := hasTracking
    status := mapProcessingStatus dump.processing_status
    categoryName := some (match dump.categoryName with
      | some n => if n = "" then "general" else n
      | none => "general")
    notes := none }

/-- `getUrgencyWeight`, the closure defined inside `compareDumps` in the
sorting utilities; `urgency` is `a.extracted_entities?.urgency`. -/
def getUrgencyWeight (urgency : Option String) : Int :=
  match urgency with
  | none => 0
  | some u =>
    let normalized := jsToLower u
    if normalized = "critical" then 4
    else if normalized = "high" then 3
    else if normalized = "medium" then 2
    else if normalized = "low" then 1
    else 0

/-- The timestamp `new Date(s).getTime()` of a stored `created_at` value
(`none` = NaN, from an absent or unparseable string). -/
def jsTime (c : Option (Option Int)) : Option Int :=
  match c with
  | some (some t) => some t
  | some none => none
  | none => none

/-- `compareDumps` from the sorting utilities.  The returned JavaScript
number is `Option Int`, `none` standing for NaN (possible only in the
third key, when a `created_at` fails to parse). -/
def compareDumps (a b : DumpDerived) : Option Int :=
  if a.displayDate ≠ b.displayDate then some (a.displayDate - b.displayDate)
  else
    let urgencyA := getUrgencyWeight a.urgency
    let urgencyB := getUrgencyWeight b.urgency
    if urgencyA ≠ urgencyB then some (urgencyB - urgencyA)
    else
      match jsTime a.created_at, jsTime b.created_at with
      | some createdA, some createdB => some (createdA - createdB)
      | _, _ => none

/-- The "may stay before" relation induced by `compareDumps` in a stable
sort: `a` need not move after `b` unless the comparator is positive.  A
NaN comparator value is neither positive nor negative, so the pair is left
in place. -/
def sortLe (a b : DumpDerived) : Bool :=
  match compareDumps a b with
  | some r => decide (r ≤ 0)
  | none => true

/-- `sortDumps` from the sorting utilities.  ECMAScript specifies
`Array.prototype.sort` to be a stable sort of a copy-on-write list for a
consistent comparator; the embedding realizes it as a stable merge sort. -/
def sortDumps (dumps : List DumpDerived) : List DumpDerived :=
  dumps.mergeSort sortLe

/-- JavaScript `x || fallback` on a possibly-undefined string (`none` =
undefined, the empty string is falsy). -/
def jsOrStr (x : Option String) (fallback : String) : String :=
  match x with
  | some s => if s = "" then fallback else s
  | none => fallback

/-- JavaScript truthiness of a possibly-undefined string. -/
def jsTruthy (x : Option String) : Bool :=
  match x with
  | some s => decide (s ≠ "")
  | none => false

/-- The state cell of the `useOptimistic` hook
(`OptimisticState<T>` in src/hooks/useOptimistic.ts). -/
structure OptimisticState (T : Type) where
  data : Option T
  isOptimistic : Bool
  isPending : Bool
  error : Option String
deriving DecidableEq, Repr

/-- The value resolved by `useOptimistic.execute`:
`{ success: true, data }` or `{ success: false, error: error.message }`.
Both optional fields are absent (`none`) when not set. -/
structure ExecResult (T : Type) where
  success : Bool
  data : Option T := none
  error : Option String := none
deriving DecidableEq, Repr

/-- `execute` from the `useOptimistic` hook, as a pure state transformer.
`onUpdate` is the caller-supplied local update with its variadic arguments
already applied; `commit` is the settled outcome of the `onCommit` promise
(`Except.error e` models a thrown error whose `message` is `e`, `none`
standing for an undefined message).  The result triple is (the
intermediate optimistic state published before the network call, the final
state, the resolved result value).  The function is total: the source
wraps the commit in try/catch, so no exception escapes; the `onError` and
`onSuccess` notification callbacks are outside the state and are not
modelled. -/
def executeOptimistic {T : Type} (state : OptimisticState T)
    (onUpdate : Option T → Option T) (commit : Except (Option String) T) :
    OptimisticState T × OptimisticState T × ExecResult T :=
  let originalData := state.data
  let optimistic : OptimisticState T :=
    { data := onUpdate state.data, isOptimistic := true, isPending := true, error := none }
  match commit with
  | .ok result =>
    (optimistic,
     { data := some result, isOptimistic := false, isPending := false, error := none },
     { success := true, data := some result, error := none })
  | .error e =>
    (optimistic,
     { data := originalData, isOptimistic := false, isPending := false,
       error := some (jsOrStr e ("Operation failed")) },
     { success := false, data := none, error := e })

/-- The value resolved by the context mutations:
`Promise<{ success: boolean; error?: string }>`. -/
structure MutResult where
  success : Bool
  error : Option String := none
deriving DecidableEq, Repr

/-- `updateDumpLocally` from src/contexts/DumpsContext.tsx: map an update
over every dump whose id matches.  The source merges a partial object by
spread; each call site's concrete spread is passed here as `update`. -/
def updateDumpLocally (dumps : List Dump) (dumpId : String)
    (update : Dump → Dump) : List Dump :=
  dumps.map (fun dump => if dump.id = dumpId then update dump else dump)

/-- The spread `{ ...dump, ...updates }` for a full `Dump` object
`updates`: every declared interface field is present on `updates` and
overrides `dump`; the undeclared runtime `status` property is copied only
when present on `updates`, otherwise the current one is kept. -/
def mergeFull (updates dump : Dump) : Dump :=
  { updates with statusProp :=
      match updates.statusProp with
      | some s => some s
      | none => dump.statusProp }

/-- The optimistic partial update of the accept flow:
`{ processing_status: 'completed' }`. -/
def optimisticAccept (dump : Dump) : Dump :=
  { dump with processing_status := "completed" }

/-- The optimistic partial update of the reject flow:
`{ processing_status: 'completed', status: 'Rejected' }` (the second field
is attached through an `as any` cast and lands as a runtime property). -/
def optimisticReject (dump : Dump) : Dump :=
  { dump with processing_status := "completed", statusProp := some ("Rejected") }

/-- `acceptDumpWithOptimism` from src/contexts/DumpsContext.tsx as a pure
transformer of the context's `dumps` list.  `category`/`notes` are the
`updates` argument; `updOutcome` is the settled `updateDump` service
response and `accOutcome` the settled `acceptDump` service response, each
modelled at the `ApiResponse` level: `Except.error m` is an unsuccessful
response whose `error?.message` is `m`.  The `setError` side channel is
not part of the returned pair. -/
def acceptDumpWithOptimism (dumps : List Dump) (dumpId : String)
    (category notes : Option String)
    (updOutcome : Except (Option String) Unit)
    (accOutcome : Except (Option String) Dump) : List Dump × MutResult :=
  match dumps.find? (fun d => d.id = dumpId) with
  | none => (dumps, { success := false, error := some ("Dump not found") })
  | some originalDump =>
    let dumps1 := updateDumpLocally dumps dumpId optimisticAccept
    let tryResult : Except String Dump :=
      if jsTruthy category || jsTruthy notes then
        match updOutcome with
        | .error m => .error (jsOrStr m ("Failed to update dump"))
        | .ok _ =>
          match accOutcome with
          | .error m => .error (jsOrStr m ("Failed to accept dump"))
          | .ok data => .ok data
      else
        match accOutcome with
        | .error m => .error (jsOrStr m ("Failed to accept dump"))
        | .ok data => .ok data
    match tryResult with
    | .ok data =>
      (updateDumpLocally dumps1 dumpId (mergeFull data),
       { success := true, error := none })
    | .error msg =>
      (updateDumpLocally dumps1 dumpId (mergeFull originalDump),
       { success := false, error := some (jsOrStr (some msg) ("Failed to accept dump")) })

/-- JavaScript `String.prototype.trim`: strip leading and trailing
whitespace; defined structurally over the character list so that it
evaluates by `decide`. -/
def jsTrim (s : String) : String :=
  String.mk (((s.data.dropWhile Char.isWhitespace).reverse.dropWhile
    Char.isWhitespace).reverse)

/-- `rejectDumpWithOptimism` from src/contexts/DumpsContext.tsx as a pure
transformer of the context's `dumps` list.  `outcome` is the settled
`rejectDump` service response, modelled as in `acceptDumpWithOptimism`. -/
def rejectDumpWithOptimism (dumps : List Dump) (dumpId : String)
    (reason : String) (outcome : Except (Option String) Dump) :
    List Dump × MutResult :=
  if reason = "" ∨ (jsTrim reason).length < 10 then
    (dumps, { success := false,
              error := some ("Rejection reason must be at least 10 characters") })
  else
    match dumps.find? (fun d => d.id = dumpId) with
    | none => (dumps, { success := false, error := some ("Dump not found") })
    | some originalDump =>
      let dumps1 := updateDumpLocally dumps dumpId optimisticReject
      match outcome with
      | .ok data =>
        (updateDumpLocally dumps1 dumpId (mergeFull data),
         { success := true, error := none })
      | .error m =>
        (updateDumpLocally dumps1 dumpId (mergeFull originalDump),
         { success := false, error := some (jsOrStr m ("Failed to reject dump")) })

/-- Sample dump with an unparseable date entry and an ancient creation
timestamp. -/
def dumpForC4 : Dump :=
  { id := "c4", created_at := some (some (-999999999999)),
    dates := some [none], urgency := none, actionItems := none,
    phones := none, processing_status := "received", categoryName := none }

/-- Sample dump whose only extracted date parses to timestamp 0. -/
def dumpWithDateZero : Dump :=
  { id := "A", created_at := some (some 500), dates := some [some 0],
    urgency := none, actionItems := none, phones := none,
    processing_status := "received", categoryName := none }

/-- Sample dump with no extracted dates whose creation timestamp parses
to 0, so its display date is also 0. -/
def dumpCreatedZero : Dump :=
  { id := "B", created_at := some (some 0), dates := none,
    urgency := none, actionItems := none, phones := none,
    processing_status := "received", categoryName := none }

/-- Sample dump with several extracted dates, one unparseable, minimum 3. -/
def dumpForC7 : Dump :=
  { id := "c7", created_at := some none, dates := some [some 5, none, some 3, some 9],
    urgency := none, actionItems := none, phones := none,
    processing_status := "received", categoryName := none }

/-- The Time-Bucket Assigner as worded by the specification: six cases
evaluated in order, first match wins, on calendar-day boundaries —
overdue strictly before the start of the current day, today on the
current calendar day, tomorrow on the immediately following calendar day,
nextWeek strictly before today plus 7 calendar days, nextMonth strictly
before today plus 1 calendar month, later otherwise. -/
def specTimeBucket (date now : Int) : TimeBucket :=
  if date < startOfDay now then .overdue
  else if dayNumber date = dayNumber now then .today
  else if dayNumber date = dayNumber now + 1 then .tomorrow
  else if date < startOfDay now + 7 * msPerDay then .nextWeek
  else if date < addMonths (startOfDay now) 1 then .nextMonth
  else .later

/-- Sample derived dump for the sorter claims. -/
def mkDerived (ident : String) (dd : Int) (u : Option String) (c : Int) : DumpDerived :=
  { id := ident, created_at := some (some c), dates := none, urgency := u,
    actionItems := none, phones := none, processing_status := "received",
    categoryName := none, timeBucket := .later, isOverdue := false,
    displayDate := dd, hasReminder := false, hasTracking := false,
    status := "received", notes := none }

/-- Sample raw dump as fetched from the backend (no runtime `status`
property). -/
def backendDump : Dump :=
  { id := "d1", created_at := some (some 0), dates := none, urgency := none,
    actionItems := none, phones := none, processing_status := "received",
    categoryName := none }

/-- Sample server payload returned by a successful commit. -/
def serverDump : Dump :=
  { id := "d1", created_at := some (some 0), dates := none, urgency := none,
    actionItems := none, phones := none, processing_status := "completed",
    categoryName := some ("general") }

/-- The dumps list left behind by a failed rejection of `backendDump`: a
program-reachable state in which the affected dump carries the leftover
runtime `status: 'Rejected'` property. -/
def pollutedDumps : List Dump :=
  (rejectDumpWithOptimism [backendDump] ("d1") ("not relevant to me")
    (.error (some ("network down")))).1

/-- Derived dumps whose creation timestamp parsed validly.  ECMAScript
only pins down `Array.prototype.sort` (stability included) for consistent
comparators; an unparseable `created_at` makes `compareDumps` return NaN,
which breaks consistency, so the sorter contract is stated over lists of
valid-timestamp items. -/
def VDump := {d : DumpDerived // (jsTime d.created_at).isSome = true}

/-- The sort relation restricted to valid dumps. -/
def vLe (a b : VDump) : Bool := sortLe a.val b.val

/-- Projection of the time bucket computed by `enrichDump`. -/
lemma enrichDump_timeBucket (dump : Dump) (now : Int) :
    (enrichDump dump now).timeBucket =
      (match getEarliestDate dump with
       | some e => assignTimeBucket e now
       | none => TimeBucket.later) := rfl

/-- Projection of the overdue flag computed by `enrichDump`. -/
lemma enrichDump_isOverdue (dump : Dump) (now : Int) :
    (enrichDump dump now).isOverdue =
      (match getEarliestDate dump with
       | some _ => isOverdue dump now
       | none => false) := rfl

/-- Projection of the display date computed by `enrichDump`. -/
lemma enrichDump_displayDate (dump : Dump) (now : Int) :
    (enrichDump dump now).displayDate =
      (match getEarliestDate dump with
       | some e => e
       | none =>
         match dump.created_at with
         | some (some t) => t
         | some none => now
         | none => now) := rfl

/-- A dump none of whose stored date strings parses has no earliest date. -/
lemma getEarliestDate_eq_none (dump : Dump)
    (h : ∀ l, dump.dates = some l → ∀ x ∈ l, x = none) :
    getEarliestDate dump = none := by
  unfold getEarliestDate
  cases hd : dump.dates with
  | none => rfl
  | some l =>
    have hfm : l.filterMap id = [] := by
      rw [List.filterMap_eq_nil_iff]
      intro a ha
      exact h l hd a ha
    simp only [hd, hfm]
    split <;> rfl

/-- C4: an item whose extraction payload contains no validly parseable
calendar dates is never overdue, at any evaluation instant, whatever its
creation timestamp: both the standalone `isOverdue` helper and the
`isOverdue` field produced by `enrichDump` are false. -/
theorem claim_C4 (dump : Dump) (now : Int)
    (h : ∀ l, dump.dates = some l → ∀ x ∈ l, x = none) :
    isOverdue dump now = false ∧ (enrichDump dump now).isOverdue = false := by
  have hn := getEarliestDate_eq_none dump h
  constructor
  · unfold isOverdue
    rw [hn]
  · rw [enrichDump_isOverdue, hn]

/-- Witness for C4 at a concrete dump and instant. -/
theorem claim_C4_witness :
    isOverdue dumpForC4 1700000000000 = false ∧
    (enrichDump dumpForC4 1700000000000).isOverdue = false :=
  claim_C4 dumpForC4 1700000000000 (by decide)

/-- `assignTimeBucket` yields `overdue` exactly when the date is strictly
before the start of the current calendar day. -/
lemma assignTimeBucket_eq_overdue_iff (d n : Int) :
    assignTimeBucket d n = TimeBucket.overdue ↔ isBefore d (startOfDay n) = true := by
  simp only [assignTimeBucket]
  cases h1 : isBefore d (startOfDay n) with
  | true => simp [h1]
  | false =>
    rw [if_neg (by simp [h1])]
    split_ifs <;> simp [h1]

/-- C10: at a single evaluation instant, the derived `isOverdue` flag is
true exactly when the derived `timeBucket` is `overdue`; both reduce to
the existence of a validly parsed extracted date whose earliest value is
strictly before the start of the current calendar day. -/
theorem claim_C10 (dump : Dump) (now : Int) :
    (enrichDump dump now).isOverdue = true ↔
      (enrichDump dump now).timeBucket = TimeBucket.overdue := by
  rw [enrichDump_isOverdue, enrichDump_timeBucket]
  cases h : getEarliestDate dump with
  | none => simp
  | some e =>
    simp only [assignTimeBucket_eq_overdue_iff]
    unfold isOverdue
    rw [h]

/-- C3, counterexample: two raw items evaluated at the same instant with
equal derived display dates can land in different time buckets, because
the bucket is computed from the earliest extracted date (hard-coded to
`later` when there is none), not from the display date: at instant 0, an
item whose extracted date is 0 is bucketed `today`, while an item with no
extracted dates and creation timestamp 0 has the same display date 0 but
is bucketed `later`. -/
theorem claim_C3_counterexample :
    (enrichDump dumpWithDateZero 0).displayDate =
      (enrichDump dumpCreatedZero 0).displayDate ∧
    (enrichDump dumpWithDateZero 0).timeBucket = TimeBucket.today ∧
    (enrichDump dumpCreatedZero 0).timeBucket = TimeBucket.later ∧
    (enrichDump dumpWithDateZero 0).timeBucket ≠
      (enrichDump dumpCreatedZero 0).timeBucket := by
  refine ⟨by decide, by decide, by decide, by decide⟩

/-- C3, amended: the time bucket of a derived item is a pure function of
the item's earliest validly parsed extracted date (with `later` assigned
when none exists) and the evaluation instant; two items with the same
earliest extracted date evaluated at the same instant always receive the
same bucket.  (Determinism itself is inherent: `enrichDump` is a pure
function of the raw item and the instant.) -/
theorem claim_C3_amended (a b : Dump) (now : Int)
    (h : getEarliestDate a = getEarliestDate b) :
    (enrichDump a now).timeBucket = (enrichDump b now).timeBucket := by
  rw [enrichDump_timeBucket, enrichDump_timeBucket, h]

/-- Witness for the amended C3 at two concrete distinct items sharing the
same extracted date. -/
theorem claim_C3_witness :
    getEarliestDate dumpWithDateZero =
      getEarliestDate { dumpCreatedZero with dates := some [some 0] } ∧
    (enrichDump dumpWithDateZero 0).timeBucket =
      (enrichDump { dumpCreatedZero with dates := some [some 0] } 0).timeBucket :=
  ⟨by decide, claim_C3_amended dumpWithDateZero
    { dumpCreatedZero with dates := some [some 0] } 0 (by decide)⟩

/-- The left fold of `min` over a list is one of the folded values. -/
lemma foldl_min_mem : ∀ (ts : List Int) (t : Int), ts.foldl min t ∈ t :: ts := by
  intro ts
  induction ts with
  | nil => intro t; simp
  | cons x xs ih =>
    intro t
    rw [List.foldl_cons]
    have h2 := ih (min t x)
    rcases List.mem_cons.mp h2 with h3 | h3
    · rcases min_choice t x with h4 | h4
      · simp [List.mem_cons, h3.trans h4]
      · simp [List.mem_cons, h3.trans h4]
    · simp [List.mem_cons, h3]

/-- The left fold of `min` over a list is a lower bound of the folded
values. -/
lemma foldl_min_le : ∀ (ts : List Int) (t x : Int), x ∈ t :: ts → ts.foldl min t ≤ x := by
  intro ts
  induction ts with
  | nil =>
    intro t x hx
    simp only [List.mem_cons, List.not_mem_nil, or_false] at hx
    simp [hx]
  | cons y ys ih =>
    intro t x hx
    rw [List.foldl_cons]
    rcases List.mem_cons.mp hx with rfl | hx2
    · exact le_trans (ih (min x y) (min x y) (by simp)) (min_le_left x y)
    rcases List.mem_cons.mp hx2 with rfl | hx3
    · exact le_trans (ih (min t x) (min t x) (by simp)) (min_le_right t x)
    · exact ih (min t y) x (by simp [hx3])

/-- C7: the Entity Enricher is total (every function in the embedding is,
mirroring the source's fallback paths, which never throw: a malformed or
absent creation timestamp with no extracted dates falls back to the
current instant) and the display date is: the minimum of the validly
parsed extracted dates when at least one exists; otherwise the parsed
creation timestamp when it parses validly; otherwise the evaluation
instant itself. -/
theorem claim_C7 (dump : Dump) (now : Int) :
    (∀ l, dump.dates = some l → ∀ t0 ts, l.filterMap id = t0 :: ts →
      ((enrichDump dump now).displayDate ∈ l.filterMap id ∧
       ∀ t ∈ l.filterMap id, (enrichDump dump now).displayDate ≤ t)) ∧
    (getEarliestDate dump = none →
      (∀ t, dump.created_at = some (some t) →
        (enrichDump dump now).displayDate = t) ∧
      (jsTime dump.created_at = none →
        (enrichDump dump now).displayDate = now)) := by
  constructor
  · intro l hl t0 ts hf
    have hlen : ¬ l.length = 0 := by
      intro h0
      rw [List.length_eq_zero] at h0
      rw [h0] at hf
      simp at hf
    have hg : getEarliestDate dump = some (ts.foldl min t0) := by
      simp only [getEarliestDate, hl, hf]
      rw [if_neg hlen]
    rw [enrichDump_displayDate, hg, hf]
    exact ⟨foldl_min_mem ts t0, foldl_min_le ts t0⟩
  · intro hn
    constructor
    · intro t hct
      rw [enrichDump_displayDate, hn, hct]
    · intro hct
      rw [enrichDump_displayDate, hn]
      cases hc : dump.created_at with
      | none => rfl
      | some c =>
        cases c with
        | none => rfl
        | some t => rw [hc] at hct; simp [jsTime] at hct

/-- Witness for C7 at a concrete dump: the display date is the least
parsed extracted date. -/
theorem claim_C7_witness :
    (enrichDump dumpForC7 1000).displayDate ∈ [(5 : Int), 3, 9] ∧
    ∀ t ∈ [(5 : Int), 3, 9], (enrichDump dumpForC7 1000).displayDate ≤ t :=
  (claim_C7 dumpForC7 1000).1 [some 5, none, some 3, some 9] rfl 5 [3, 9] (by decide)

/-- Floor division by the day length agrees with Euclidean division
(the divisor is positive). -/
lemma fdivDay (a : Int) : a.fdiv 86400000 = a / 86400000 :=
  Int.fdiv_eq_ediv a (by norm_num)

/-- Two timestamps have equal day starts exactly when they have equal day
numbers. -/
lemma startOfDay_eq_iff (a b : Int) :
    startOfDay a = startOfDay b ↔ dayNumber a = dayNumber b := by
  unfold startOfDay dayNumber msPerDay
  rw [fdivDay, fdivDay]
  omega

/-- Adding one day advances the day number by one. -/
lemma dayNumber_add_day (t : Int) : dayNumber (t + msPerDay) = dayNumber t + 1 := by
  unfold dayNumber msPerDay
  rw [fdivDay, fdivDay]
  omega

/-- The day number of a day start is the day number of the timestamp. -/
lemma dayNumber_startOfDay (t : Int) : dayNumber (startOfDay t) = dayNumber t := by
  unfold dayNumber startOfDay msPerDay
  rw [fdivDay, fdivDay]
  omega

/-- C5: `assignTimeBucket` returns, for every display date and
evaluation instant, the label of the first matching case in the
specified order (overdue, today, tomorrow, nextWeek exclusive of the
7-day boundary, nextMonth exclusive of the 1-calendar-month boundary,
later); and calendar-day boundaries are used: at every instant, a display
date at 23:59:59 of the current day is bucketed `today` while one at
00:00:00 of the next day is bucketed `tomorrow`, two distinct buckets. -/
theorem claim_C5 :
    (∀ date now : Int, assignTimeBucket date now = specTimeBucket date now) ∧
    (∀ now : Int,
      assignTimeBucket (startOfDay now + (msPerDay - 1000)) now = TimeBucket.today ∧
      assignTimeBucket (startOfDay now + msPerDay) now = TimeBucket.tomorrow ∧
      TimeBucket.today ≠ TimeBucket.tomorrow) := by
  constructor
  · intro date now
    simp only [assignTimeBucket, specTimeBucket, isBefore, isToday, isTomorrow,
      isSameDay, addWeeks, decide_eq_true_eq, startOfDay_eq_iff, dayNumber_add_day,
      one_mul]
  · intro now
    have hq : startOfDay now = msPerDay * dayNumber now := rfl
    have h1 : ¬ (startOfDay now + (msPerDay - 1000) < startOfDay now) := by
      unfold msPerDay
      omega
    have h2 : dayNumber (startOfDay now + (msPerDay - 1000)) = dayNumber now := by
      rw [hq]
      unfold dayNumber msPerDay
      rw [fdivDay, fdivDay]
      omega
    have h3 : ¬ (startOfDay now + msPerDay < startOfDay now) := by
      unfold msPerDay
      omega
    have h4 : dayNumber (startOfDay now + msPerDay) = dayNumber now + 1 := by
      rw [hq]
      unfold dayNumber msPerDay
      rw [fdivDay, fdivDay]
      omega
    refine ⟨?_, ?_, by decide⟩
    · simp only [assignTimeBucket, isBefore, isToday, isSameDay, decide_eq_true_eq,
        startOfDay_eq_iff]
      rw [if_neg h1, if_pos h2]
    · simp only [assignTimeBucket, isBefore, isToday, isTomorrow, isSameDay,
        decide_eq_true_eq, startOfDay_eq_iff, dayNumber_add_day, dayNumber_startOfDay]
      rw [if_neg h3]
      rw [if_neg (by omega : ¬ (dayNumber now + 1 = dayNumber now))]
      simp

/-- C6: the comparator orders by display date ascending first — whenever
A's display date is strictly earlier than B's, the comparator is negative
and A sorts before B regardless of the urgency values — then by urgency
weight descending with weights critical=4, high=3, medium=2, low=1 and 0
for an absent or unrecognized label, then by parsed creation timestamp
ascending. -/
theorem claim_C6 :
    (∀ a b : DumpDerived, a.displayDate < b.displayDate →
      compareDumps a b = some (a.displayDate - b.displayDate) ∧
      sortLe a b = true ∧ sortLe b a = false) ∧
    (∀ a b : DumpDerived, a.displayDate = b.displayDate →
      getUrgencyWeight b.urgency < getUrgencyWeight a.urgency →
      compareDumps a b = some (getUrgencyWeight b.urgency - getUrgencyWeight a.urgency) ∧
      sortLe a b = true ∧ sortLe b a = false) ∧
    (∀ a b : DumpDerived, ∀ x y : Int, a.displayDate = b.displayDate →
      getUrgencyWeight a.urgency = getUrgencyWeight b.urgency →
      jsTime a.created_at = some x → jsTime b.created_at = some y →
      compareDumps a b = some (x - y)) ∧
    (getUrgencyWeight (some ("critical")) = 4 ∧
     getUrgencyWeight (some ("HIGH")) = 3 ∧
     getUrgencyWeight (some ("medium")) = 2 ∧
     getUrgencyWeight (some ("low")) = 1 ∧
     getUrgencyWeight none = 0) ∧
    (∀ u : String, jsToLower u ≠ "critical" → jsToLower u ≠ "high" →
      jsToLower u ≠ "medium" → jsToLower u ≠ "low" → getUrgencyWeight (some u) = 0) := by
  refine ⟨?_, ?_, ?_, ⟨by decide, by decide, by decide, by decide, rfl⟩, ?_⟩
  · intro a b h
    have hne : a.displayDate ≠ b.displayDate := ne_of_lt h
    have hab : compareDumps a b = some (a.displayDate - b.displayDate) := by
      unfold compareDumps
      rw [if_pos hne]
    have hba : compareDumps b a = some (b.displayDate - a.displayDate) := by
      unfold compareDumps
      rw [if_pos (Ne.symm hne)]
    refine ⟨hab, ?_, ?_⟩
    · unfold sortLe
      rw [hab]
      simp
      omega
    · unfold sortLe
      rw [hba]
      simp
      omega
  · intro a b hd hu
    have hune : getUrgencyWeight a.urgency ≠ getUrgencyWeight b.urgency := (ne_of_lt hu).symm
    have hab : compareDumps a b =
        some (getUrgencyWeight b.urgency - getUrgencyWeight a.urgency) := by
      unfold compareDumps
      rw [if_neg (by simp [hd]), if_pos hune]
    have hba : compareDumps b a =
        some (getUrgencyWeight a.urgency - getUrgencyWeight b.urgency) := by
      unfold compareDumps
      rw [if_neg (by simp [hd]), if_pos (Ne.symm hune)]
    refine ⟨hab, ?_, ?_⟩
    · unfold sortLe
      rw [hab]
      simp
      omega
    · unfold sortLe
      rw [hba]
      simp
      omega
  · intro a b x y hd hu hx hy
    unfold compareDumps
    rw [if_neg (by simp [hd]), if_neg (by simp [hu]), hx, hy]
  · intro u h1 h2 h3 h4
    unfold getUrgencyWeight
    simp [h1, h2, h3, h4]

/-- Witness for C6 at a concrete pair: an earlier display date beats a
higher urgency. -/
theorem claim_C6_witness :
    compareDumps (mkDerived ("a") 10 (some ("low")) 7)
        (mkDerived ("b") 20 (some ("critical")) 3) = some (-10) ∧
    sortLe (mkDerived ("a") 10 (some ("low")) 7)
        (mkDerived ("b") 20 (some ("critical")) 3) = true ∧
    sortLe (mkDerived ("b") 20 (some ("critical")) 3)
        (mkDerived ("a") 10 (some ("low")) 7) = false :=
  claim_C6.1 (mkDerived ("a") 10 (some ("low")) 7)
    (mkDerived ("b") 20 (some ("critical")) 3) (by decide)

/-- Two successive local updates keyed on the same id compose pointwise,
provided the first update preserves the id. -/
lemma updateDumpLocally_comp (dumps : List Dump) (dumpId : String)
    (f g : Dump → Dump) (hf : ∀ d, (f d).id = d.id) :
    updateDumpLocally (updateDumpLocally dumps dumpId f) dumpId g =
      dumps.map (fun d => if d.id = dumpId then g (f d) else d) := by
  unfold updateDumpLocally
  rw [List.map_map]
  refine List.map_congr_left fun d _ => ?_
  by_cases hd : d.id = dumpId
  · simp [Function.comp, hd, hf]
  · simp [Function.comp, hd]

/-- The optimistic partial updates preserve the dump id. -/
lemma optimisticReject_id (d : Dump) : (optimisticReject d).id = d.id := rfl

/-- The accept-flow optimistic update preserves the dump id. -/
lemma optimisticAccept_id (d : Dump) : (optimisticAccept d).id = d.id := rfl

/-- C1, counterexample: a reject invocation whose remote commit fails
does not restore the pre-invocation dumps list byte-for-byte — the
rollback merge cannot remove the runtime `status: 'Rejected'` property
that the optimistic step attached, so the restored object carries one
extra property (the failure is still reported as a result value). -/
theorem claim_C1_counterexample :
    (rejectDumpWithOptimism [backendDump] ("d1") ("not relevant to me")
        (.error (some ("network down")))).2 =
      { success := false, error := some ("network down") } ∧
    (rejectDumpWithOptimism [backendDump] ("d1") ("not relevant to me")
        (.error (some ("network down")))).1 =
      [{ backendDump with statusProp := some ("Rejected") }] ∧
    (rejectDumpWithOptimism [backendDump] ("d1") ("not relevant to me")
        (.error (some ("network down")))).1 ≠ [backendDump] := by
  refine ⟨by decide, by decide, by decide⟩

/-- C1, amended: when the remote commit fails, the generic coordinator
hook restores the pre-invocation snapshot verbatim as the final visible
state and surfaces the failure as a result value (success flag false,
the thrown error's message passed through), never as a thrown exception
(`executeOptimistic` is total); the context reject flow likewise
surfaces the failure as a result value and restores every declared
`Dump` field of the affected item verbatim, but the runtime
`status: 'Rejected'` property attached by its optimistic step survives
the rollback, so its restored state is not byte-for-byte identical when
that property was previously absent. -/
theorem claim_C1_amended :
    (∀ (T : Type) (s : OptimisticState T) (u : Option T → Option T) (e : Option String),
      executeOptimistic s u (.error e) =
        ({ data := u s.data, isOptimistic := true, isPending := true, error := none },
         { data := s.data, isOptimistic := false, isPending := false,
           error := some (jsOrStr e ("Operation failed")) },
         { success := false, data := none, error := e })) ∧
    (∀ (dumps : List Dump) (dumpId reason : String) (e : Option String) (orig : Dump),
      ¬ (reason = "" ∨ (jsTrim reason).length < 10) →
      dumps.find? (fun d => d.id = dumpId) = some orig →
      rejectDumpWithOptimism dumps dumpId reason (.error e) =
        (dumps.map (fun d => if d.id = dumpId then
            { orig with statusProp :=
                match orig.statusProp with
                | some s => some s
                | none => some ("Rejected") }
          else d),
         { success := false, error := some (jsOrStr e ("Failed to reject dump")) })) := by
  constructor
  · intro T s u e
    rfl
  · intro dumps dumpId reason e orig hv hfind
    unfold rejectDumpWithOptimism
    rw [if_neg hv, hfind]
    dsimp only
    rw [updateDumpLocally_comp dumps dumpId optimisticReject (mergeFull orig)
      optimisticReject_id]
    rfl

/-- Witness for the amended C1 at a concrete failing rejection. -/
theorem claim_C1_witness :
    executeOptimistic
      { data := some (5 : Int), isOptimistic := false,
        isPending := false, error := none }
      (fun _ => some 6) (.error (some ("boom"))) =
      ({ data := some 6, isOptimistic := true, isPending := true, error := none },
       { data := some 5, isOptimistic := false, isPending := false,
           error := some ("boom") },
       { success := false, data := none, error := some ("boom") }) ∧
    rejectDumpWithOptimism [backendDump] ("d1") ("low quality result")
      (.error none) =
      ([{ backendDump with statusProp := some ("Rejected") }],
       { success := false, error := some ("Failed to reject dump") }) := by
  constructor
  · exact claim_C1_amended.1 Int
      { data := some 5, isOptimistic := false, isPending := false, error := none }
      (fun _ => some 6) (some ("boom"))
  · rw [claim_C1_amended.2 [backendDump] ("d1") ("low quality result")
      none backendDump (by decide) (by decide)]
    rfl

/-- If a dump carries no runtime status property, overriding that
property with its own (absent) value is the identity. -/
lemma dump_set_statusProp_none (d : Dump) (h : d.statusProp = none) :
    { d with statusProp := none } = d := by
  cases d
  simp_all

/-- Committing a full server payload after the accept-flow optimistic
step overwrites every declared `Dump` field of each matching dump with
the payload's, while the runtime status property is the payload's when
present there and otherwise whatever the dump already carried (the
accept-flow optimistic step leaves it untouched). -/
lemma acceptCommitFinalRuntime (dumps : List Dump) (dumpId : String) (data : Dump) :
    updateDumpLocally (updateDumpLocally dumps dumpId optimisticAccept) dumpId
        (mergeFull data) =
      dumps.map (fun d => if d.id = dumpId then
        { data with statusProp :=
            match data.statusProp with
            | some s => some s
            | none => d.statusProp }
        else d) := by
  rw [updateDumpLocally_comp dumps dumpId optimisticAccept (mergeFull data)
    optimisticAccept_id]
  refine List.map_congr_left fun d hd => ?_
  by_cases hid : d.id = dumpId
  · rw [if_pos hid, if_pos hid]
    rfl
  · rw [if_neg hid, if_neg hid]

/-- Committing a full server payload after the accept-flow optimistic
step replaces each matching dump by the payload verbatim, provided
neither the matching dumps nor the payload carry the runtime status
property. -/
lemma acceptCommitFinal (dumps : List Dump) (dumpId : String) (data : Dump)
    (hstat : ∀ d ∈ dumps, d.id = dumpId → d.statusProp = none)
    (hdata : data.statusProp = none) :
    updateDumpLocally (updateDumpLocally dumps dumpId optimisticAccept) dumpId
        (mergeFull data) =
      dumps.map (fun d => if d.id = dumpId then data else d) := by
  rw [updateDumpLocally_comp dumps dumpId optimisticAccept (mergeFull data)
    optimisticAccept_id]
  refine List.map_congr_left fun d hd => ?_
  by_cases hid : d.id = dumpId
  · rw [if_pos hid, if_pos hid]
    show { data with statusProp :=
      match data.statusProp with
      | some s => some s
      | none => (optimisticAccept d).statusProp } = data
    rw [hdata]
    show { data with statusProp := d.statusProp } = data
    rw [hstat d hd hid]
    exact dump_set_statusProp_none data hdata
  · rw [if_neg hid, if_neg hid]

/-- C2, counterexample: the original claim fails on a program-reachable
state.  A failed reject leaves the affected dump with the leftover
runtime `status: 'Rejected'` property (`pollutedDumps`); a subsequent
accept whose remote commit succeeds then reports success but leaves as
final state the server payload plus that leftover property — not the
server's returned payload byte-for-byte. -/
theorem claim_C2_counterexample :
    (acceptDumpWithOptimism pollutedDumps ("d1") none none (.ok ())
        (.ok serverDump)).2 = { success := true, error := none } ∧
    (acceptDumpWithOptimism pollutedDumps ("d1") none none (.ok ())
        (.ok serverDump)).1 =
      [{ serverDump with statusProp := some ("Rejected") }] ∧
    (acceptDumpWithOptimism pollutedDumps ("d1") none none (.ok ())
        (.ok serverDump)).1 ≠ [serverDump] := by
  refine ⟨by decide, by decide, by decide⟩

/-- C2, amended: when the remote commit succeeds the result carries a
true success flag with the server data, and the server response replaces
the optimistic guess: the coordinator hook's final visible state is
exactly the server payload; the context accept flow overwrites every
declared `Dump` field of the affected item with the server payload's,
its runtime status property being the payload's when present and
otherwise the item's pre-existing one — so the final state is the
payload byte-for-byte exactly when the item carries no leftover runtime
status property (such a property survives only from a previously failed
reject), and the payload plus that single leftover property otherwise. -/
theorem claim_C2_amended :
    (∀ (T : Type) (s : OptimisticState T) (u : Option T → Option T) (r : T),
      executeOptimistic s u (.ok r) =
        ({ data := u s.data, isOptimistic := true, isPending := true, error := none },
         { data := some r, isOptimistic := false, isPending := false, error := none },
         { success := true, data := some r, error := none })) ∧
    (∀ (dumps : List Dump) (dumpId : String) (category notes : Option String)
       (updOutcome : Except (Option String) Unit) (data orig : Dump),
      dumps.find? (fun d => d.id = dumpId) = some orig →
      ((jsTruthy category || jsTruthy notes) = true → updOutcome = .ok ()) →
      acceptDumpWithOptimism dumps dumpId category notes updOutcome (.ok data) =
        (dumps.map (fun d => if d.id = dumpId then
            { data with statusProp :=
                match data.statusProp with
                | some s => some s
                | none => d.statusProp }
          else d),
         { success := true, error := none })) ∧
    (∀ (dumps : List Dump) (dumpId : String) (category notes : Option String)
       (updOutcome : Except (Option String) Unit) (data orig : Dump),
      dumps.find? (fun d => d.id = dumpId) = some orig →
      (∀ d ∈ dumps, d.id = dumpId → d.statusProp = none) →
      data.statusProp = none →
      ((jsTruthy category || jsTruthy notes) = true → updOutcome = .ok ()) →
      acceptDumpWithOptimism dumps dumpId category notes updOutcome (.ok data) =
        (dumps.map (fun d => if d.id = dumpId then data else d),
         { success := true, error := none })) := by
  refine ⟨?_, ?_, ?_⟩
  · intro T s u r
    rfl
  · intro dumps dumpId category notes updOutcome data orig hfind hupd
    unfold acceptDumpWithOptimism
    rw [hfind]
    dsimp only
    by_cases hc : (jsTruthy category || jsTruthy notes) = true
    · rw [hupd hc, if_pos hc]
      dsimp only
      rw [acceptCommitFinalRuntime dumps dumpId data]
    · rw [if_neg hc]
      dsimp only
      rw [acceptCommitFinalRuntime dumps dumpId data]
  · intro dumps dumpId category notes updOutcome data orig hfind hstat hdata hupd
    unfold acceptDumpWithOptimism
    rw [hfind]
    dsimp only
    by_cases hc : (jsTruthy category || jsTruthy notes) = true
    · rw [hupd hc, if_pos hc]
      dsimp only
      rw [acceptCommitFinal dumps dumpId data hstat hdata]
    · rw [if_neg hc]
      dsimp only
      rw [acceptCommitFinal dumps dumpId data hstat hdata]

/-- Witness for the amended C2: a successful accept on a clean list
yields exactly the server payload, and on the polluted list yields the
payload plus the leftover runtime property. -/
theorem claim_C2_witness :
    acceptDumpWithOptimism [backendDump] ("d1") none none (.ok ()) (.ok serverDump) =
      ([serverDump], { success := true, error := none }) ∧
    acceptDumpWithOptimism pollutedDumps ("d1") none none (.ok ()) (.ok serverDump) =
      ([{ serverDump with statusProp := some ("Rejected") }],
       { success := true, error := none }) := by
  constructor
  · rw [claim_C2_amended.2.2 [backendDump] ("d1") none none (.ok ()) serverDump
      backendDump (by decide) (by decide) (by decide) (fun _ => rfl)]
    rfl
  · rw [claim_C2_amended.2.1 pollutedDumps ("d1") none none (.ok ()) serverDump
      { backendDump with statusProp := some ("Rejected") } (by decide) (fun _ => rfl)]
    decide

/-- C9, counterexample: the state-container reject operation does
validate on its own — a five-character reason is rejected inside
`rejectDumpWithOptimism` with a validation failure result and unchanged
state, even though the remote commit (had it been invoked) would have
succeeded; the invocation is therefore not forwarded to the remote
commit. -/
theorem claim_C9_counterexample :
    rejectDumpWithOptimism [backendDump] ("d1") ("short") (.ok serverDump) =
      ([backendDump],
       { success := false,
         error := some ("Rejection reason must be at least 10 characters") }) := by
  decide

/-- C9, amended: the state-container reject operation performs its own
validation: whenever the reason is empty or its trimmed length is below
10 characters, it returns a validation-failure result with the state
unchanged and independent of (and without invoking) the remote commit;
only invocations with a valid reason and a matching dump are forwarded
to the remote commit, whose outcome then determines the result. -/
theorem claim_C9_amended :
    (∀ (dumps : List Dump) (dumpId reason : String)
       (outcome : Except (Option String) Dump),
      (reason = "" ∨ (jsTrim reason).length < 10) →
      rejectDumpWithOptimism dumps dumpId reason outcome =
        (dumps,
         { success := false,
           error := some ("Rejection reason must be at least 10 characters") })) ∧
    (∀ (dumps : List Dump) (dumpId reason : String) (data orig : Dump),
      ¬ (reason = "" ∨ (jsTrim reason).length < 10) →
      dumps.find? (fun d => d.id = dumpId) = some orig →
      (rejectDumpWithOptimism dumps dumpId reason (.ok data)).2 =
        { success := true, error := none }) := by
  constructor
  · intro dumps dumpId reason outcome h
    unfold rejectDumpWithOptimism
    rw [if_pos h]
  · intro dumps dumpId reason data orig hv hfind
    unfold rejectDumpWithOptimism
    rw [if_neg hv, hfind]

/-- Witness for the amended C9: a concrete short reason is stopped by the
container's validation, and a concrete valid reason is forwarded to a
succeeding commit. -/
theorem claim_C9_witness :
    rejectDumpWithOptimism [backendDump] ("d1") ("nope") (.error none) =
      ([backendDump],
       { success := false,
         error := some ("Rejection reason must be at least 10 characters") }) ∧
    (rejectDumpWithOptimism [backendDump] ("d1") ("a genuinely valid reason")
        (.ok serverDump)).2 = { success := true, error := none } :=
  ⟨claim_C9_amended.1 [backendDump] ("d1") ("nope") (.error none) (by decide),
   claim_C9_amended.2 [backendDump] ("d1") ("a genuinely valid reason")
     serverDump backendDump (by decide) (by decide)⟩

/-- Characterization of `sortLe` on items with valid creation
timestamps: lexicographic in (display date ascending, urgency weight
descending, creation timestamp ascending). -/
lemma sortLe_true_iff (a b : DumpDerived) (x y : Int)
    (hx : jsTime a.created_at = some x) (hy : jsTime b.created_at = some y) :
    sortLe a b = true ↔
      (a.displayDate < b.displayDate ∨
       (a.displayDate = b.displayDate ∧
        (getUrgencyWeight b.urgency < getUrgencyWeight a.urgency ∨
         (getUrgencyWeight a.urgency = getUrgencyWeight b.urgency ∧ x ≤ y)))) := by
  unfold sortLe compareDumps
  rw [hx, hy]
  by_cases h1 : a.displayDate = b.displayDate
  · rw [if_neg (by simp [h1])]
    by_cases h2 : getUrgencyWeight a.urgency = getUrgencyWeight b.urgency
    · rw [if_neg (by simp [h2])]
      dsimp only
      simp only [decide_eq_true_eq]
      omega
    · rw [if_pos h2]
      dsimp only
      simp only [decide_eq_true_eq]
      omega
  · rw [if_pos h1]
    dsimp only
    simp only [decide_eq_true_eq]
    omega

/-- `vLe` is transitive. -/
lemma vLe_trans : ∀ (a b c : VDump), vLe a b → vLe b c → vLe a c := by
  intro a b c hab hbc
  obtain ⟨x, hx⟩ := Option.isSome_iff_exists.mp a.property
  obtain ⟨y, hy⟩ := Option.isSome_iff_exists.mp b.property
  obtain ⟨z, hz⟩ := Option.isSome_iff_exists.mp c.property
  unfold vLe at *
  rw [sortLe_true_iff a.val b.val x y hx hy] at hab
  rw [sortLe_true_iff b.val c.val y z hy hz] at hbc
  rw [sortLe_true_iff a.val c.val x z hx hz]
  omega

/-- `vLe` is total. -/
lemma vLe_total : ∀ (a b : VDump), vLe a b || vLe b a := by
  intro a b
  obtain ⟨x, hx⟩ := Option.isSome_iff_exists.mp a.property
  obtain ⟨y, hy⟩ := Option.isSome_iff_exists.mp b.property
  rw [Bool.or_eq_true]
  unfold vLe
  rw [sortLe_true_iff a.val b.val x y hx hy]
  rw [sortLe_true_iff b.val a.val y x hy hx]
  omega

/-- C8: on a list of items with validly parsed creation timestamps (the
comparator is then consistent, the only case in which ECMAScript pins
down the sort at all), sorting is idempotent — sorting an already-sorted
list returns the same list — the output is a permutation of the input
(the sorter returns a new list and, being a pure function of it, leaves
the input unmutated), and the sort is stable: any two items that tie on
all three comparison keys keep their relative input order. -/
theorem claim_C8 (l : List DumpDerived)
    (h : ∀ d ∈ l, (jsTime d.created_at).isSome = true) :
    sortDumps (sortDumps l) = sortDumps l ∧
    List.Perm (sortDumps l) l ∧
    (∀ a b : DumpDerived, a.displayDate = b.displayDate →
      getUrgencyWeight a.urgency = getUrgencyWeight b.urgency →
      jsTime a.created_at = jsTime b.created_at →
      [a, b].Sublist l → [a, b].Sublist (sortDumps l)) := by
  have hperm : List.Perm (sortDumps l) l := List.mergeSort_perm l sortLe
  let l2 : List VDump := l.attach.map (fun x => ⟨x.val, h x.val x.property⟩)
  have hmap : l2.map Subtype.val = l := by
    show (l.attach.map (fun x => (⟨x.val, h x.val x.property⟩ : VDump))).map
      Subtype.val = l
    rw [List.map_map]
    exact l.attach_map_subtype_val
  have hcompat : ∀ a ∈ l2, ∀ b ∈ l2, vLe a b = sortLe a.val b.val :=
    fun _ _ _ _ => rfl
  have e1 : (l2.mergeSort vLe).map Subtype.val =
      (l2.map Subtype.val).mergeSort sortLe := List.map_mergeSort hcompat
  have e2 : sortDumps l = (l2.mergeSort vLe).map Subtype.val := by
    rw [e1, hmap]
    rfl
  refine ⟨?_, hperm, ?_⟩
  · have hcompat2 : ∀ a ∈ l2.mergeSort vLe, ∀ b ∈ l2.mergeSort vLe,
        vLe a b = sortLe a.val b.val := fun _ _ _ _ => rfl
    have e3 : ((l2.mergeSort vLe).mergeSort vLe).map Subtype.val =
        ((l2.mergeSort vLe).map Subtype.val).mergeSort sortLe :=
      List.map_mergeSort hcompat2
    have hidem : (l2.mergeSort vLe).mergeSort vLe = l2.mergeSort vLe :=
      List.mergeSort_of_sorted (List.sorted_mergeSort vLe_trans vLe_total l2)
    calc sortDumps (sortDumps l)
        = ((l2.mergeSort vLe).map Subtype.val).mergeSort sortLe := by rw [e2]; rfl
      _ = ((l2.mergeSort vLe).mergeSort vLe).map Subtype.val := e3.symm
      _ = (l2.mergeSort vLe).map Subtype.val := by rw [hidem]
      _ = sortDumps l := e2.symm
  · intro a b hd hu hc hab
    have ha : a ∈ l := hab.subset (by simp)
    have hab2 : [a, b].Sublist (l2.map Subtype.val) := by
      rw [hmap]
      exact hab
    obtain ⟨p, hp, hpe⟩ := List.sublist_map_iff.mp hab2
    rcases p with _ | ⟨a2, _ | ⟨b2, _ | ⟨c2, rest⟩⟩⟩ <;> simp at hpe
    · obtain ⟨ha2, hb2⟩ := hpe
      have hle : sortLe a b = true := by
        obtain ⟨x, hx⟩ := Option.isSome_iff_exists.mp (h a ha)
        have hy : jsTime b.created_at = some x := by
          rw [← hc]
          exact hx
        rw [sortLe_true_iff a b x x hx hy]
        exact Or.inr ⟨hd, Or.inr ⟨hu, le_refl x⟩⟩
      have hvle : vLe a2 b2 = true := by
        unfold vLe
        rw [ha2, hb2] at hle
        exact hle
      have hsub2 : [a2, b2].Sublist (l2.mergeSort vLe) :=
        List.pair_sublist_mergeSort vLe_trans vLe_total hvle hp
      have hsub3 : [a2.val, b2.val].Sublist ((l2.mergeSort vLe).map Subtype.val) :=
        hsub2.map Subtype.val
      rw [e2, ha2, hb2]
      exact hsub3

/-- Witness for C8 at a concrete list containing a tied pair. -/
theorem claim_C8_witness :
    sortDumps (sortDumps [mkDerived ("x") 10 none 5, mkDerived ("y") 10 none 5,
        mkDerived ("z") 3 none 1]) =
      sortDumps [mkDerived ("x") 10 none 5, mkDerived ("y") 10 none 5,
        mkDerived ("z") 3 none 1] ∧
    [mkDerived ("x") 10 none 5, mkDerived ("y") 10 none 5].Sublist
      (sortDumps [mkDerived ("x") 10 none 5, mkDerived ("y") 10 none 5,
        mkDerived ("z") 3 none 1]) :=
  ⟨(claim_C8 [mkDerived ("x") 10 none 5, mkDerived ("y") 10 none 5,
      mkDerived ("z") 3 none 1] (by decide)).1,
   (claim_C8 [mkDerived ("x") 10 none 5, mkDerived ("y") 10 none 5,
      mkDerived ("z") 3 none 1] (by decide)).2.2
     (mkDerived ("x") 10 none 5) (mkDerived ("y") 10 none 5) rfl rfl rfl
     (by decide)⟩
